import Mathlib

/-!
Verification of the log ingestion and query service (`backend/server.js`).

The embedding models the core write/read/filter/notify logic:
* `validateLogEntry` — the schema validator (`validateLogEntry` in the source);
* `readLogs` — reading the persisted container (`readLogs`), where any
  read/parse failure or missing `logs` field yields the empty collection;
* `ingest` — the `POST /logs` handler pipeline: validate, read, assign
  identity, prepend, truncate to 1000, persist, broadcast;
* `queryLogs` — the `GET /logs` handler: the chain of optional filters
  followed by the reverse-chronological sort.

Modelling conventions:
* JavaScript values supplied for `metadata` are modelled by `JsValue`, so the
  `typeof x === 'object'` and truthiness checks of the source are expressed
  exactly.  The other caller-supplied fields are modelled as `String`
  (an absent field and the empty string are both falsy in the source's
  missing-field check, so `""` models both).
* `new Date(s).getTime()` is modelled by `jsDateMs`, a parser for the strict
  ISO-8601 UTC forms `YYYY-MM-DDTHH:MM:SSZ` and `YYYY-MM-DDTHH:MM:SS.mmmZ`,
  returning the epoch milliseconds; all other strings are treated as
  unparseable (`NaN` in the source).  Stored timestamps are normalised by
  `toISOString()` in the source and re-parsed on every comparison, an exact
  round trip, so a stored record carries its timestamp as the epoch-millisecond
  value `timestampMs` directly.
* `id` is assigned from `Date.now().toString()`; since decimal stringification
  of naturals is injective, the model carries the underlying clock reading
  `now : Nat` as the id, which preserves equality and distinctness of ids.
* The durable write (`writeLogs`) either succeeds or fails atomically; the
  `writeOk` flag of `ingest` selects which, and on failure the persisted
  container is unchanged.
-/

/-- A JavaScript runtime value, as far as the validator inspects one:
`undefined`, `null`, booleans, numbers, strings, arrays and plain objects. -/
inductive JsValue where
  | undef
  | null
  | boolean (b : Bool)
  | number (n : Int)
  | string (s : String)
  | array (elems : List JsValue)
  | object (fields : List (String × JsValue))
deriving Repr

/-- JavaScript truthiness of a value (`!x` in the source negates this).
`undefined`, `null`, `false`, `0` and `""` are falsy; arrays and objects are
always truthy. -/
def JsValue.truthy : JsValue → Bool
  | .undef => false
  | .null => false
  | .boolean b => b
  | .number n => n != 0
  | .string s => s != ""
  | .array _ => true
  | .object _ => true

/-- Whether `typeof x === 'object'` holds in JavaScript: true for `null`,
arrays and plain objects alike. -/
def JsValue.typeofIsObject : JsValue → Bool
  | .null => true
  | .array _ => true
  | .object _ => true
  | _ => false

/-- Whether `x === null` holds in JavaScript. -/
def JsValue.isNull : JsValue → Bool
  | .null => true
  | _ => false

/-- Whether a (proleptic Gregorian) year is a leap year. -/
def isLeapYear (y : Int) : Bool :=
  (y % 4 == 0 && y % 100 != 0) || y % 400 == 0

/-- Number of days in a month of a given year. -/
def daysInMonth (y m : Int) : Int :=
  if m == 2 then (if isLeapYear y then 29 else 28)
  else if m == 4 || m == 6 || m == 9 || m == 11 then 30
  else 31

/-- Days from the civil date `y-m-d` to the Unix epoch 1970-01-01
(negative before the epoch); the standard days-from-civil computation. -/
def civilDays (y m d : Int) : Int :=
  let y2 := if m ≤ 2 then y - 1 else y
  let era := (if 0 ≤ y2 then y2 else y2 - 399) / 400
  let yoe := y2 - era * 400
  let mp := (m + 9) % 12
  let doy := (153 * mp + 2) / 5 + d - 1
  let doe := yoe * 365 + yoe / 4 - yoe / 100 + doy
  era * 146097 + doe - 719468

/-- Whether a character is an ASCII decimal digit. -/
def isDigitChar (c : Char) : Bool := '0' ≤ c && c ≤ '9'

/-- Numeric value of an ASCII decimal digit. -/
def digitVal (c : Char) : Int := (c.toNat : Int) - 48

/-- Epoch milliseconds of `y-mo-d h:mi:s.ms` UTC, provided every component is
in range; `none` models an invalid date (`NaN`). -/
def buildIsoMs (y mo d h mi s ms : Int) : Option Int :=
  if 1 ≤ mo && mo ≤ 12 && 1 ≤ d && d ≤ daysInMonth y mo
      && 0 ≤ h && h ≤ 23 && 0 ≤ mi && mi ≤ 59 && 0 ≤ s && s ≤ 59 then
    some (civilDays y mo d * 86400000 + h * 3600000 + mi * 60000 + s * 1000 + ms)
  else
    none

/-- Parse the character list of a strict ISO-8601 UTC timestamp
(`YYYY-MM-DDTHH:MM:SSZ` or `YYYY-MM-DDTHH:MM:SS.mmmZ`) to epoch
milliseconds. -/
def parseIsoChars : List Char → Option Int
  | [y1, y2, y3, y4, '-', m1, m2, '-', d1, d2, 'T',
     h1, h2, ':', n1, n2, ':', s1, s2, 'Z'] =>
    if [y1, y2, y3, y4, m1, m2, d1, d2, h1, h2, n1, n2, s1, s2].all isDigitChar then
      buildIsoMs (digitVal y1 * 1000 + digitVal y2 * 100 + digitVal y3 * 10 + digitVal y4)
        (digitVal m1 * 10 + digitVal m2) (digitVal d1 * 10 + digitVal d2)
        (digitVal h1 * 10 + digitVal h2) (digitVal n1 * 10 + digitVal n2)
        (digitVal s1 * 10 + digitVal s2) 0
    else none
  | [y1, y2, y3, y4, '-', m1, m2, '-', d1, d2, 'T',
     h1, h2, ':', n1, n2, ':', s1, s2, '.', f1, f2, f3, 'Z'] =>
    if [y1, y2, y3, y4, m1, m2, d1, d2, h1, h2, n1, n2, s1, s2, f1, f2, f3].all
        isDigitChar then
      buildIsoMs (digitVal y1 * 1000 + digitVal y2 * 100 + digitVal y3 * 10 + digitVal y4)
        (digitVal m1 * 10 + digitVal m2) (digitVal d1 * 10 + digitVal d2)
        (digitVal h1 * 10 + digitVal h2) (digitVal n1 * 10 + digitVal n2)
        (digitVal s1 * 10 + digitVal s2)
        (digitVal f1 * 100 + digitVal f2 * 10 + digitVal f3)
    else none
  | _ => none

/-- Model of `new Date(s).getTime()` on the strict ISO-8601 UTC subset:
`some ms` when `s` parses to a valid point in time, `none` for `NaN`. -/
def jsDateMs (s : String) : Option Int := parseIsoChars s.data

/-- An inbound candidate record, the body of `POST /logs`.  String-typed
fields model the well-formed shapes; an absent field is modelled by `""`
(both are falsy in the source's missing-field check).  `metadata` keeps its
full JavaScript shape, which the validator inspects with `typeof`. -/
structure Candidate where
  level : String
  message : String
  resourceId : String
  timestamp : String
  traceId : String
  spanId : String
  commit : String
  metadata : JsValue
deriving Repr

/-- Result of `validateLogEntry` in the source:
`{valid:false, error}` or `{valid:true}`. -/
inductive ValidationResult where
  | invalid (error : String)
  | valid
deriving Repr, DecidableEq

/-- The eight required fields, in source order, each with its truthiness. -/
def requiredFieldStatus (e : Candidate) : List (String × Bool) :=
  [("level", e.level != ""), ("message", e.message != ""),
   ("resourceId", e.resourceId != ""), ("timestamp", e.timestamp != ""),
   ("traceId", e.traceId != ""), ("spanId", e.spanId != ""),
   ("commit", e.commit != ""), ("metadata", e.metadata.truthy)]

/-- The required fields whose value is falsy
(`required.filter(field => !logEntry[field])`). -/
def missingFields (e : Candidate) : List String :=
  ((requiredFieldStatus e).filter (fun p => !p.2)).map Prod.fst

/-- `Array.prototype.join(', ')`. -/
def joinComma : List String → String
  | [] => ""
  | [x] => x
  | x :: xs => x ++ ", " ++ joinComma xs

/-- The four admissible levels. -/
def validLevels : List String := ["error", "warn", "info", "debug"]

/-- The schema validator `validateLogEntry`: missing-field check, then level
enumeration, then timestamp parse, then the `typeof`-object check on
`metadata`. -/
def validateLogEntry (e : Candidate) : ValidationResult :=
  if (missingFields e).length > 0 then
    .invalid ("Missing required fields: " ++ joinComma (missingFields e))
  else if !(validLevels.contains e.level) then
    .invalid "Invalid level. Must be one of: error, warn, info, debug"
  else if (jsDateMs e.timestamp).isNone then
    .invalid "Invalid timestamp format. Must be ISO 8601"
  else if !(e.metadata.typeofIsObject && !e.metadata.isNull) then
    .invalid "Metadata must be a JSON object"
  else
    .valid

/-- A stored log record, as written to the persisted container.  `id` carries
the numeric clock reading of `Date.now()` (the source stores its decimal
string, which is injective in the reading); `timestampMs` carries the
normalised timestamp as epoch milliseconds (the source stores
`toISOString()` of the parsed value and re-parses it on use, an exact round
trip); `ingestedAtMs` is the server clock at persistence time. -/
structure LogRecord where
  id : Nat
  level : String
  message : String
  resourceId : String
  timestampMs : Int
  traceId : String
  spanId : String
  commit : String
  metadata : JsValue
  ingestedAtMs : Nat
deriving Repr

/-- The persisted container as the read path sees it: `unreadable` covers a
missing file, an unreadable file and corrupt JSON (`fs.readFile` or
`JSON.parse` throwing); `container logs?` is a parsed object whose `logs`
field is present (`some`) or absent/falsy (`none`). -/
inductive RawStore where
  | unreadable
  | container (logs : Option (List LogRecord))
deriving Repr

/-- `readLogs`: return the container's `logs` array, or `[]` on any read or
parse failure (`JSON.parse(data).logs || []` inside `try/catch`). -/
def readLogs : RawStore → List LogRecord
  | .unreadable => []
  | .container none => []
  | .container (some logs) => logs

/-- Outcome of a `POST /logs` call: HTTP 400 with the validation error,
HTTP 500 when persistence fails, or HTTP 201 with the stored record. -/
inductive IngestOutcome where
  | rejected (error : String)
  | failed
  | ok (stored : LogRecord)
deriving Repr

/-- The `newLog` realtime event payload: the stored record and the total
collection size after insertion and truncation. -/
structure BroadcastEvent where
  log : LogRecord
  totalLogs : Nat
deriving Repr

/-- Result of one `POST /logs` call: the HTTP outcome, the persisted
container afterwards, and the list of emitted broadcast events. -/
structure IngestResult where
  outcome : IngestOutcome
  store : RawStore
  events : List BroadcastEvent
deriving Repr

/-- The `newLog` object built by the handler: id and `ingestedAt` from the
server clock, the caller's fields, the timestamp normalised. -/
def mkStoredRecord (now : Nat) (e : Candidate) : LogRecord :=
  { id := now
    level := e.level
    message := e.message
    resourceId := e.resourceId
    timestampMs := (jsDateMs e.timestamp).getD 0
    traceId := e.traceId
    spanId := e.spanId
    commit := e.commit
    metadata := e.metadata
    ingestedAtMs := now }

/-- The `POST /logs` pipeline: validate; on failure respond 400 touching
nothing.  Otherwise read the collection, prepend the new record, truncate to
the first 1000, persist, and only then emit exactly one broadcast event.  A
failed durable write (modelled atomically by `writeOk = false`) is caught
and answered with 500, with no event emitted. -/
def ingest (writeOk : Bool) (now : Nat) (st : RawStore) (e : Candidate) :
    IngestResult :=
  match validateLogEntry e with
  | .invalid err => ⟨.rejected err, st, []⟩
  | .valid =>
    let logs := readLogs st
    let newLog := mkStoredRecord now e
    let logs2 := (newLog :: logs).take 1000
    if writeOk then
      ⟨.ok newLog, .container (some logs2), [⟨newLog, logs2.length⟩]⟩
    else
      ⟨.failed, st, []⟩

/-- The query criteria of `GET /logs`, each a flat string parameter that may
be absent (`none`); the source treats the empty string like absence (both
are falsy in `if (param)`). -/
structure QueryCriteria where
  level : Option String
  message : Option String
  resourceId : Option String
  timestampStart : Option String
  timestampEnd : Option String
  traceId : Option String
  spanId : Option String
  commit : Option String
deriving Repr

/-- The criteria object with every parameter absent. -/
def emptyCriteria : QueryCriteria :=
  ⟨none, none, none, none, none, none, none, none⟩

/-- Lower-cased character list of a string (`String.prototype.toLowerCase`
on the ASCII subset). -/
def lowerChars (s : String) : List Char := s.data.map Char.toLower

/-- Whether `hay` starts with `needle`. -/
def startsWithChars : List Char → List Char → Bool
  | [], _ => true
  | _ :: _, [] => false
  | a :: as, b :: bs => a == b && startsWithChars as bs

/-- `String.prototype.includes`: whether `needle` occurs contiguously in the
haystack. -/
def includesChars (needle : List Char) : List Char → Bool
  | [] => needle.isEmpty
  | c :: t => startsWithChars needle (c :: t) || includesChars needle t

/-- One `if (param) { filteredLogs = filteredLogs.filter(...) }` step for a
string-valued criterion. -/
def applyStrFilter (crit : Option String) (p : String → LogRecord → Bool)
    (logs : List LogRecord) : List LogRecord :=
  match crit with
  | none => logs
  | some s => if s == "" then logs else logs.filter (p s)

/-- The `timestamp_start` step: parse the bound; if it is a valid date keep
records with timestamp ≥ the bound, otherwise leave the list untouched. -/
def applyStartFilter (crit : Option String) (logs : List LogRecord) :
    List LogRecord :=
  match crit with
  | none => logs
  | some s =>
    if s == "" then logs
    else
      match jsDateMs s with
      | none => logs
      | some d => logs.filter (fun log => decide (d ≤ log.timestampMs))

/-- The `timestamp_end` step: parse the bound; if it is a valid date keep
records with timestamp ≤ the bound, otherwise leave the list untouched. -/
def applyEndFilter (crit : Option String) (logs : List LogRecord) :
    List LogRecord :=
  match crit with
  | none => logs
  | some s =>
    if s == "" then logs
    else
      match jsDateMs s with
      | none => logs
      | some d => logs.filter (fun log => decide (log.timestampMs ≤ d))

/-- The filter chain of `GET /logs`, in source order: level, message,
resourceId, timestamp_start, timestamp_end, traceId, spanId, commit. -/
def filterLogs (q : QueryCriteria) (logs : List LogRecord) : List LogRecord :=
  let l1 := applyStrFilter q.level (fun s log => log.level == s) logs
  let l2 := applyStrFilter q.message
    (fun s log => includesChars (lowerChars s) (lowerChars log.message)) l1
  let l3 := applyStrFilter q.resourceId (fun s log => log.resourceId == s) l2
  let l4 := applyStartFilter q.timestampStart l3
  let l5 := applyEndFilter q.timestampEnd l4
  let l6 := applyStrFilter q.traceId (fun s log => log.traceId == s) l5
  let l7 := applyStrFilter q.spanId (fun s log => log.spanId == s) l6
  applyStrFilter q.commit (fun s log => log.commit == s) l7

/-- The comparator of the final sort, as a relation: `a` precedes `b` when
`b.timestamp ≤ a.timestamp` (reverse-chronological).  The source sorts with
`(a, b) => new Date(b.timestamp) - new Date(a.timestamp)`. -/
def tsGE (a b : LogRecord) : Prop := b.timestampMs ≤ a.timestampMs

instance : DecidableRel tsGE := fun a b =>
  inferInstanceAs (Decidable (b.timestampMs ≤ a.timestampMs))

instance : IsTotal LogRecord tsGE :=
  ⟨fun a b => le_total b.timestampMs a.timestampMs⟩

instance : IsTrans LogRecord tsGE :=
  ⟨fun _ _ _ h1 h2 => le_trans h2 h1⟩

/-- The `GET /logs` handler: read the collection, run the filter chain, sort
reverse-chronologically by timestamp, and respond with the result. -/
def queryLogs (st : RawStore) (q : QueryCriteria) : List LogRecord :=
  List.insertionSort tsGE (filterLogs q (readLogs st))

/-- Modelled from the spec (§4.3): one supplied criterion passes a record
when the given test holds; an omitted or empty criterion imposes no
constraint.  Used to state the conjunction semantics of the filter chain. -/
def critPasses (crit : Option String) (test : String → Bool) : Bool :=
  match crit with
  | none => true
  | some s => s == "" || test s

/-- Modelled from the spec (§4.3): a record satisfies the criteria exactly
when it passes every supplied criterion — exact match on level, resourceId,
traceId, spanId and commit; case-insensitive substring containment on
message; inclusive timestamp bounds with an unparseable bound imposing no
constraint. -/
def specMatches (q : QueryCriteria) (r : LogRecord) : Bool :=
  critPasses q.level (fun s => r.level == s) &&
  critPasses q.message
    (fun s => includesChars (lowerChars s) (lowerChars r.message)) &&
  critPasses q.resourceId (fun s => r.resourceId == s) &&
  critPasses q.timestampStart (fun s =>
    match jsDateMs s with
    | none => true
    | some d => decide (d ≤ r.timestampMs)) &&
  critPasses q.timestampEnd (fun s =>
    match jsDateMs s with
    | none => true
    | some d => decide (r.timestampMs ≤ d)) &&
  critPasses q.traceId (fun s => r.traceId == s) &&
  critPasses q.spanId (fun s => r.spanId == s) &&
  critPasses q.commit (fun s => r.commit == s)

/-- The end-to-end scenario record of the test suite: a valid candidate. -/
def sampleCand : Candidate :=
  { level := "error", message := "Database connection failed",
    resourceId := "db-server-01", timestamp := "2024-01-01T10:00:00Z",
    traceId := "trace-001", spanId := "span-001", commit := "abc123",
    metadata := .object [("retryCount", .number 3)] }

/-- A second valid candidate, differing from `sampleCand`. -/
def sampleCand2 : Candidate :=
  { sampleCand with level := "warn", message := "High memory usage detected" }

/-- `sampleCand` with `metadata: null`. -/
def nullMetaCand : Candidate := { sampleCand with metadata := .null }

/-- `sampleCand` with `metadata: true`, a truthy primitive. -/
def boolMetaCand : Candidate := { sampleCand with metadata := .boolean true }

/-- `sampleCand` with an array as `metadata`. -/
def arrayMetaCand : Candidate := { sampleCand with metadata := .array [.number 1] }

/-- The stored record obtained by ingesting `sampleCand` at a fixed clock. -/
def dbRec : LogRecord := mkStoredRecord 1700000000000 sampleCand

/-- A store holding exactly `dbRec`. -/
def dbStore : RawStore := .container (some [dbRec])

/-- A record with timestamp T1 = 1000 ms. -/
def recT1 : LogRecord :=
  { id := 1, level := "info", message := "first", resourceId := "r1",
    timestampMs := 1000, traceId := "t1", spanId := "s1", commit := "c1",
    metadata := .object [], ingestedAtMs := 1 }

/-- A record with timestamp T2 = 2000 ms. -/
def recT2 : LogRecord := { recT1 with id := 2, message := "second", timestampMs := 2000 }

/-- A record with timestamp T3 = 3000 ms. -/
def recT3 : LogRecord := { recT1 with id := 3, message := "third", timestampMs := 3000 }

/-- A store whose insertion order T1, T3, T2 is scrambled relative to the
timestamps. -/
def storeT123 : RawStore := .container (some [recT1, recT3, recT2])

/-- The parsed value of a supplied timestamp bound: `none` when the bound is
absent, empty or unparseable (in which case it constrains nothing). -/
def parsedBound : Option String → Option Int
  | none => none
  | some s => if s == "" then none else jsDateMs s

/-- A string-criterion filter step keeps exactly the records that pass the
criterion. -/
theorem mem_applyStrFilter {r : LogRecord} (crit : Option String)
    (p : String → LogRecord → Bool) (logs : List LogRecord) :
    r ∈ applyStrFilter crit p logs ↔
      r ∈ logs ∧ critPasses crit (fun s => p s r) = true := by
  cases crit with
  | none => simp [applyStrFilter, critPasses]
  | some s =>
    cases hs : s == "" with
    | true => simp [applyStrFilter, critPasses, hs]
    | false => simp [applyStrFilter, critPasses, hs, List.mem_filter]

/-- The `timestamp_start` step keeps exactly the records at or after a
parseable bound, and keeps everything otherwise. -/
theorem mem_applyStartFilter {r : LogRecord} (crit : Option String)
    (logs : List LogRecord) :
    r ∈ applyStartFilter crit logs ↔
      r ∈ logs ∧ critPasses crit (fun s =>
        match jsDateMs s with
        | none => true
        | some d => decide (d ≤ r.timestampMs)) = true := by
  cases crit with
  | none => simp [applyStartFilter, critPasses]
  | some s =>
    cases hs : s == "" with
    | true => simp [applyStartFilter, critPasses, hs]
    | false =>
      cases hd : jsDateMs s with
      | none => simp [applyStartFilter, critPasses, hs, hd]
      | some d => simp [applyStartFilter, critPasses, hs, hd, List.mem_filter]

/-- The `timestamp_end` step keeps exactly the records at or before a
parseable bound, and keeps everything otherwise. -/
theorem mem_applyEndFilter {r : LogRecord} (crit : Option String)
    (logs : List LogRecord) :
    r ∈ applyEndFilter crit logs ↔
      r ∈ logs ∧ critPasses crit (fun s =>
        match jsDateMs s with
        | none => true
        | some d => decide (r.timestampMs ≤ d)) = true := by
  cases crit with
  | none => simp [applyEndFilter, critPasses]
  | some s =>
    cases hs : s == "" with
    | true => simp [applyEndFilter, critPasses, hs]
    | false =>
      cases hd : jsDateMs s with
      | none => simp [applyEndFilter, critPasses, hs, hd]
      | some d => simp [applyEndFilter, critPasses, hs, hd, List.mem_filter]

/-- The filter chain keeps exactly the records satisfying the conjunction of
all supplied criteria. -/
theorem mem_filterLogs {r : LogRecord} (q : QueryCriteria)
    (logs : List LogRecord) :
    r ∈ filterLogs q logs ↔ r ∈ logs ∧ specMatches q r = true := by
  unfold filterLogs specMatches
  simp only [mem_applyStrFilter, mem_applyStartFilter, mem_applyEndFilter,
    Bool.and_eq_true]
  tauto

/-- A record is in the query result exactly when it is in the stored
collection and satisfies every supplied criterion. -/
theorem mem_queryLogs {r : LogRecord} (st : RawStore) (q : QueryCriteria) :
    r ∈ queryLogs st q ↔ r ∈ readLogs st ∧ specMatches q r = true := by
  unfold queryLogs
  rw [List.mem_insertionSort]
  exact mem_filterLogs q _

/-- On a valid candidate with a succeeding durable write, `ingest` persists
the prepended-and-truncated collection and emits one event. -/
theorem ingest_valid_true (now : Nat) (st : RawStore) (e : Candidate)
    (h : validateLogEntry e = .valid) :
    ingest true now st e =
      ⟨.ok (mkStoredRecord now e),
       .container (some ((mkStoredRecord now e :: readLogs st).take 1000)),
       [⟨mkStoredRecord now e,
         ((mkStoredRecord now e :: readLogs st).take 1000).length⟩]⟩ := by
  simp [ingest, h]

/-- C1: the ingest pipeline is strictly ordered.  If validation fails the
call returns Rejected, the persisted container is untouched and no event is
broadcast; if validation succeeds but the durable write fails the call
returns Failed and no event is broadcast; every broadcast event carries a
record that is present in the persisted collection at the time of the
broadcast (broadcast only after durable persistence). -/
theorem ingest_strictly_ordered (writeOk : Bool) (now : Nat) (st : RawStore)
    (e : Candidate) :
    (∀ err, validateLogEntry e = .invalid err →
      ingest writeOk now st e = ⟨.rejected err, st, []⟩) ∧
    (validateLogEntry e = .valid → writeOk = false →
      ingest writeOk now st e = ⟨.failed, st, []⟩) ∧
    (∀ ev ∈ (ingest writeOk now st e).events,
      validateLogEntry e = .valid ∧
        ev.log ∈ readLogs (ingest writeOk now st e).store) := by
  refine ⟨?_, ?_, ?_⟩
  · intro err h
    simp [ingest, h]
  · intro h hw
    simp [ingest, h, hw]
  · intro ev hev
    cases h : validateLogEntry e with
    | invalid err => simp [ingest, h] at hev
    | valid =>
      refine ⟨rfl, ?_⟩
      cases writeOk with
      | false => simp [ingest, h] at hev
      | true =>
        rw [ingest_valid_true now st e h] at hev ⊢
        simp only [List.mem_singleton] at hev
        subst hev
        show mkStoredRecord now e ∈
          (mkStoredRecord now e :: readLogs st).take 1000
        rw [show (1000 : Nat) = 999 + 1 from rfl, List.take_succ_cons]
        exact List.mem_cons_self _ _

/-- C1 witness: at concrete inputs, an invalid candidate is rejected with
nothing persisted and nothing broadcast, and a valid candidate with a
failing durable write yields Failed with nothing broadcast. -/
theorem ingest_strictly_ordered_witness :
    ingest true 7 dbStore nullMetaCand =
      ⟨.rejected "Missing required fields: metadata", dbStore, []⟩ ∧
    ingest false 7 dbStore sampleCand = ⟨.failed, dbStore, []⟩ :=
  ⟨(ingest_strictly_ordered true 7 dbStore nullMetaCand).1 _ rfl,
   (ingest_strictly_ordered false 7 dbStore sampleCand).2.1 rfl rfl⟩

/-- C2: after a successful ingest the persisted collection holds at most
1000 records; the new record is inserted at the head; the evicted records
are exactly the tail of the previous collection beyond position 999 (the
oldest by insertion order); and when the previous collection already held
1000 records the result again holds exactly 1000 with exactly one record
(the oldest-inserted) evicted. -/
theorem ingest_retention_cap (now : Nat) (st : RawStore) (e : Candidate)
    (h : validateLogEntry e = .valid) :
    (readLogs (ingest true now st e).store).length ≤ 1000 ∧
    readLogs (ingest true now st e).store =
      (mkStoredRecord now e :: readLogs st).take 1000 ∧
    readLogs (ingest true now st e).store ++ (readLogs st).drop 999 =
      mkStoredRecord now e :: readLogs st ∧
    ((readLogs st).length = 1000 →
      (readLogs (ingest true now st e).store).length = 1000 ∧
      ((readLogs st).drop 999).length = 1) := by
  rw [ingest_valid_true now st e h]
  show ((mkStoredRecord now e :: readLogs st).take 1000).length ≤ 1000 ∧ _ ∧ _ ∧ _
  refine ⟨?_, rfl, ?_, ?_⟩
  · rw [List.length_take]
    exact Nat.min_le_left _ _
  · have hd : (mkStoredRecord now e :: readLogs st).drop 1000 =
        (readLogs st).drop 999 := List.drop_succ_cons
    rw [← hd]
    exact List.take_append_drop 1000 _
  · intro hlen
    constructor
    · show ((mkStoredRecord now e :: readLogs st).take 1000).length = 1000
      rw [List.length_take, List.length_cons, hlen]
      decide
    · rw [List.length_drop, hlen]

/-- C2 witness: concrete successful ingest into the one-record store. -/
theorem ingest_retention_cap_witness :
    (readLogs (ingest true 8 dbStore sampleCand2).store).length ≤ 1000 ∧
    readLogs (ingest true 8 dbStore sampleCand2).store =
      (mkStoredRecord 8 sampleCand2 :: readLogs dbStore).take 1000 ∧
    readLogs (ingest true 8 dbStore sampleCand2).store ++
        (readLogs dbStore).drop 999 =
      mkStoredRecord 8 sampleCand2 :: readLogs dbStore ∧
    ((readLogs dbStore).length = 1000 →
      (readLogs (ingest true 8 dbStore sampleCand2).store).length = 1000 ∧
      ((readLogs dbStore).drop 999).length = 1) :=
  ingest_retention_cap 8 dbStore sampleCand2 rfl

/-- C9: a successful ingest emits exactly one broadcast event, carrying the
fully-formed stored record and the size of the persisted collection as it
stands after insertion and truncation. -/
theorem ingest_broadcast_once (now : Nat) (st : RawStore) (e : Candidate)
    (h : validateLogEntry e = .valid) :
    (ingest true now st e).outcome = .ok (mkStoredRecord now e) ∧
    (ingest true now st e).events =
      [⟨mkStoredRecord now e,
        (readLogs (ingest true now st e).store).length⟩] := by
  rw [ingest_valid_true now st e h]
  exact ⟨rfl, rfl⟩

/-- C9 witness: the concrete event emitted when ingesting into the
one-record store. -/
theorem ingest_broadcast_once_witness :
    (ingest true 9 dbStore sampleCand2).outcome =
      .ok (mkStoredRecord 9 sampleCand2) ∧
    (ingest true 9 dbStore sampleCand2).events =
      [⟨mkStoredRecord 9 sampleCand2,
        (readLogs (ingest true 9 dbStore sampleCand2).store).length⟩] :=
  ingest_broadcast_once 9 dbStore sampleCand2 rfl

/-- The filter chain of an empty collection is empty. -/
theorem filterLogs_nil (q : QueryCriteria) : filterLogs q [] = [] := by
  have hstr : ∀ (c : Option String) (p : String → LogRecord → Bool),
      applyStrFilter c p [] = [] := by
    intro c p
    cases c with
    | none => rfl
    | some s => simp [applyStrFilter]
  have hstart : ∀ c : Option String, applyStartFilter c [] = [] := by
    intro c
    cases c with
    | none => rfl
    | some s =>
      simp only [applyStartFilter]
      cases jsDateMs s <;> simp
  have hend : ∀ c : Option String, applyEndFilter c [] = [] := by
    intro c
    cases c with
    | none => rfl
    | some s =>
      simp only [applyEndFilter]
      cases jsDateMs s <;> simp
  simp [filterLogs, hstr, hstart, hend]

/-- C10: any failure reading or parsing the persisted container yields the
empty collection (missing/unreadable/corrupt file, or a container without
the `logs` field); a query over such a store succeeds with an empty result;
and the next successful ingest rewrites the container to hold exactly the
newly ingested record, discarding everything previously persisted. -/
theorem corrupt_store_reads_empty (q : QueryCriteria) (now : Nat)
    (e : Candidate) (h : validateLogEntry e = .valid) :
    readLogs .unreadable = [] ∧
    readLogs (.container none) = [] ∧
    queryLogs .unreadable q = [] ∧
    (ingest true now .unreadable e).store =
      .container (some [mkStoredRecord now e]) := by
  refine ⟨rfl, rfl, ?_, ?_⟩
  · show List.insertionSort tsGE (filterLogs q []) = []
    rw [filterLogs_nil]
    rfl
  · rw [ingest_valid_true now .unreadable e h]
    rfl

/-- C10 witness: concrete query and ingest over an unreadable store. -/
theorem corrupt_store_reads_empty_witness :
    readLogs .unreadable = [] ∧
    readLogs (.container none) = [] ∧
    queryLogs .unreadable emptyCriteria = [] ∧
    (ingest true 10 .unreadable sampleCand).store =
      .container (some [mkStoredRecord 10 sampleCand]) :=
  corrupt_store_reads_empty emptyCriteria 10 sampleCand rfl

/-- C5: every query result is sorted by timestamp in descending
(reverse-chronological) order, whatever the criteria and the insertion order
of the stored collection; in particular the store holding records with
timestamps 1000, 3000, 2000 in that insertion order is returned as
T3, T2, T1. -/
theorem query_sorted_descending (st : RawStore) (q : QueryCriteria) :
    List.Sorted tsGE (queryLogs st q) ∧
    queryLogs storeT123 emptyCriteria = [recT3, recT2, recT1] :=
  ⟨List.sorted_insertionSort tsGE _, rfl⟩

/-- C6: a record appears in the query result exactly when it is in the
stored collection and satisfies every supplied criterion — the
AND-conjunction of the independent predicates of `specMatches`, where
omitted or empty criteria impose no constraint and level, resourceId,
traceId, spanId and commit are exact matches. -/
theorem query_conjunction_of_filters (st : RawStore) (q : QueryCriteria)
    (r : LogRecord) :
    r ∈ queryLogs st q ↔ r ∈ readLogs st ∧ specMatches q r = true :=
  mem_queryLogs st q

/-- C7: with only a non-empty message criterion supplied, a record is in the
query result exactly when it is stored and the criterion occurs in its
message under case-insensitive comparison. -/
theorem message_filter_ci_substring (st : RawStore) (r : LogRecord)
    (s : String) (hs : s ≠ "") :
    r ∈ queryLogs st { emptyCriteria with message := some s } ↔
      r ∈ readLogs st ∧
        includesChars (lowerChars s) (lowerChars r.message) = true := by
  rw [mem_queryLogs]
  have hs2 : (s == "") = false := by
    simp [hs]
  simp [specMatches, critPasses, emptyCriteria, hs2]

/-- C7 witness: the record with message "Database connection failed" is
returned for the criteria DATABASE and connection. -/
theorem message_filter_ci_substring_witness :
    ("DATABASE" ≠ "" ∧
      dbRec ∈ queryLogs dbStore { emptyCriteria with message := some "DATABASE" }) ∧
    ("connection" ≠ "" ∧
      dbRec ∈ queryLogs dbStore { emptyCriteria with message := some "connection" }) :=
  ⟨⟨by decide, (message_filter_ci_substring dbStore dbRec "DATABASE"
      (by decide)).mpr ⟨by simp [dbStore, readLogs], by decide⟩⟩,
   ⟨by decide, (message_filter_ci_substring dbStore dbRec "connection"
      (by decide)).mpr ⟨by simp [dbStore, readLogs], by decide⟩⟩⟩

/-- A supplied lower-bound criterion passes exactly the records at or after
its parsed value, and passes everything when it does not parse. -/
theorem critPasses_start_iff (c : Option String) (r : LogRecord) :
    critPasses c (fun s => match jsDateMs s with
      | none => true
      | some d => decide (d ≤ r.timestampMs)) = true ↔
      ∀ d, parsedBound c = some d → d ≤ r.timestampMs := by
  cases c with
  | none => simp [critPasses, parsedBound]
  | some s =>
    cases hs : s == "" with
    | true => simp [critPasses, parsedBound, hs]
    | false =>
      cases hd : jsDateMs s with
      | none => simp [critPasses, parsedBound, hs, hd]
      | some d => simp [critPasses, parsedBound, hs, hd]

/-- A supplied upper-bound criterion passes exactly the records at or before
its parsed value, and passes everything when it does not parse. -/
theorem critPasses_end_iff (c : Option String) (r : LogRecord) :
    critPasses c (fun s => match jsDateMs s with
      | none => true
      | some d => decide (r.timestampMs ≤ d)) = true ↔
      ∀ d, parsedBound c = some d → r.timestampMs ≤ d := by
  cases c with
  | none => simp [critPasses, parsedBound]
  | some s =>
    cases hs : s == "" with
    | true => simp [critPasses, parsedBound, hs]
    | false =>
      cases hd : jsDateMs s with
      | none => simp [critPasses, parsedBound, hs, hd]
      | some d => simp [critPasses, parsedBound, hs, hd]

/-- With only timestamp bounds supplied, the criteria reduce to the two
bound tests. -/
theorem specMatches_bounds (sStart sEnd : Option String) (r : LogRecord) :
    specMatches { emptyCriteria with
        timestampStart := sStart, timestampEnd := sEnd } r =
      (critPasses sStart (fun s => match jsDateMs s with
        | none => true
        | some d => decide (d ≤ r.timestampMs)) &&
       critPasses sEnd (fun s => match jsDateMs s with
        | none => true
        | some d => decide (r.timestampMs ≤ d))) := by
  simp only [specMatches, emptyCriteria, critPasses, Bool.true_and,
    Bool.and_true]

/-- C8: the timestamp bounds are inclusive — with bounds supplied, a record
is in the query result exactly when it is stored, its timestamp is ≥ the
parsed start when the start parses and ≤ the parsed end when the end parses;
a bound that is absent, empty or does not parse to a valid point in time
constrains nothing (the query still succeeds). -/
theorem timestamp_bounds_inclusive (st : RawStore) (r : LogRecord)
    (sStart sEnd : Option String) :
    r ∈ queryLogs st { emptyCriteria with
        timestampStart := sStart, timestampEnd := sEnd } ↔
      r ∈ readLogs st ∧
      (∀ d, parsedBound sStart = some d → d ≤ r.timestampMs) ∧
      (∀ d, parsedBound sEnd = some d → r.timestampMs ≤ d) := by
  rw [mem_queryLogs, specMatches_bounds, Bool.and_eq_true,
    critPasses_start_iff, critPasses_end_iff]

/-- C3 counterexample: a candidate whose metadata is an array passes
validation (arrays are object-typed in JavaScript), and a candidate with
`metadata: null` is rejected by the missing-field truthiness check with the
missing-fields reason, not the metadata reason. -/
theorem metadata_array_accepted :
    validateLogEntry arrayMetaCand = .valid ∧
    validateLogEntry nullMetaCand =
      .invalid "Missing required fields: metadata" := ⟨rfl, rfl⟩

/-- C3 (amended): validation accepts a metadata value exactly when it is
object-typed and not null — so arrays are accepted; `null` (and any falsy
primitive) is rejected by the missing-required-fields check with the
missing-fields reason; a truthy primitive is rejected with the
metadata-must-be-an-object reason. -/
theorem metadata_validation (e : Candidate) :
    (validateLogEntry e = .valid →
      e.metadata.typeofIsObject = true ∧ e.metadata.isNull = false) ∧
    (e.metadata.truthy = false →
      ∃ rest, validateLogEntry e =
        .invalid ("Missing required fields: " ++ rest)) ∧
    (missingFields e = [] → validLevels.contains e.level = true →
      (jsDateMs e.timestamp).isSome = true →
      (e.metadata.typeofIsObject = false →
        validateLogEntry e = .invalid "Metadata must be a JSON object") ∧
      (∀ elems, e.metadata = JsValue.array elems →
        validateLogEntry e = .valid)) := by
  refine ⟨?_, ?_, ?_⟩
  · intro hv
    unfold validateLogEntry at hv
    split at hv
    · simp at hv
    · split at hv
      · simp at hv
      · split at hv
        · simp at hv
        · split at hv
          · simp at hv
          · rename_i hcond
            have hc2 : (e.metadata.typeofIsObject && !e.metadata.isNull) = true := by
              cases hb : e.metadata.typeofIsObject && !e.metadata.isNull with
              | false => rw [hb] at hcond; simp at hcond
              | true => rfl
            rw [Bool.and_eq_true] at hc2
            refine ⟨hc2.1, ?_⟩
            cases hb2 : e.metadata.isNull with
            | false => rfl
            | true =>
              have := hc2.2
              rw [hb2] at this
              simp at this
  · intro hf
    have hp2 : ("metadata", e.metadata.truthy) ∈
        (requiredFieldStatus e).filter (fun p => !p.2) := by
      rw [List.mem_filter]
      refine ⟨by simp [requiredFieldStatus], by simp [hf]⟩
    have hm : "metadata" ∈ missingFields e :=
      List.mem_map_of_mem Prod.fst hp2
    have hlen : (missingFields e).length > 0 :=
      List.length_pos.mpr (List.ne_nil_of_mem hm)
    refine ⟨joinComma (missingFields e), ?_⟩
    unfold validateLogEntry
    rw [if_pos hlen]
  · intro hmiss hlev hts
    have hnone2 : (jsDateMs e.timestamp).isNone = false := by
      cases hd : jsDateMs e.timestamp with
      | none => rw [hd] at hts; simp at hts
      | some d => rfl
    constructor
    · intro hobj
      simp [validateLogEntry, hmiss, hlev, hnone2, hobj]
      simpa using hlev
    · intro elems harr
      simp [validateLogEntry, hmiss, hlev, hnone2, harr,
        JsValue.typeofIsObject, JsValue.isNull]
      simpa using hlev

/-- C3 witness: a truthy primitive metadata draws the metadata reason, an
array passes validation. -/
theorem metadata_validation_witness :
    validateLogEntry boolMetaCand = .invalid "Metadata must be a JSON object" ∧
    validateLogEntry arrayMetaCand = .valid :=
  ⟨((metadata_validation boolMetaCand).2.2 rfl rfl rfl).1 rfl,
   ((metadata_validation arrayMetaCand).2.2 rfl rfl rfl).2 [.number 1] rfl⟩

/-- Every successful ingest stores a record whose id is the `Date.now()`
clock reading of the call. -/
theorem ingest_ok_id (w : Bool) (n : Nat) (st : RawStore) (e : Candidate)
    (r : LogRecord) (h : (ingest w n st e).outcome = .ok r) : r.id = n := by
  cases w with
  | false =>
    cases hv : validateLogEntry e with
    | invalid err => simp [ingest, hv] at h
    | valid => simp [ingest, hv] at h
  | true =>
    cases hv : validateLogEntry e with
    | invalid err => simp [ingest, hv] at h
    | valid =>
      rw [ingest_valid_true n st e hv] at h
      injection h with h2
      rw [← h2]
      rfl

/-- C4 counterexample: two ingests within the same millisecond
(`Date.now()` reading 1700000000000 twice) both succeed and store two
distinct records carrying the same id. -/
theorem id_collision_same_millisecond :
    (ingest true 1700000000000 (.container (some [])) sampleCand).outcome =
      .ok (mkStoredRecord 1700000000000 sampleCand) ∧
    (ingest true 1700000000000
        (ingest true 1700000000000 (.container (some [])) sampleCand).store
        sampleCand2).outcome =
      .ok (mkStoredRecord 1700000000000 sampleCand2) ∧
    mkStoredRecord 1700000000000 sampleCand ≠
      mkStoredRecord 1700000000000 sampleCand2 ∧
    (mkStoredRecord 1700000000000 sampleCand).id =
      (mkStoredRecord 1700000000000 sampleCand2).id := by
  refine ⟨rfl, rfl, ?_, rfl⟩
  intro hcontra
  have hmsg : (mkStoredRecord 1700000000000 sampleCand).message =
      (mkStoredRecord 1700000000000 sampleCand2).message :=
    congrArg LogRecord.message hcontra
  simp [mkStoredRecord, sampleCand, sampleCand2] at hmsg

/-- C4 (amended): the id assigned at write time is the server clock reading,
so records from two successful ingests carry distinct ids whenever the two
clock readings differ — but ingests within the same millisecond collide. -/
theorem id_unique_per_clock (w1 w2 : Bool) (n1 n2 : Nat) (st1 st2 : RawStore)
    (e1 e2 : Candidate) (r1 r2 : LogRecord)
    (h1 : (ingest w1 n1 st1 e1).outcome = .ok r1)
    (h2 : (ingest w2 n2 st2 e2).outcome = .ok r2)
    (hn : n1 ≠ n2) : r1.id ≠ r2.id := by
  rw [ingest_ok_id w1 n1 st1 e1 r1 h1, ingest_ok_id w2 n2 st2 e2 r2 h2]
  exact hn

/-- C4 witness: ingests at clock readings 1 and 2 store records with
distinct ids. -/
theorem id_unique_per_clock_witness :
    (ingest true 1 (.container (some [])) sampleCand).outcome =
        .ok (mkStoredRecord 1 sampleCand) ∧
    (ingest true 2 (.container (some [])) sampleCand).outcome =
        .ok (mkStoredRecord 2 sampleCand) ∧
    (1 : Nat) ≠ 2 ∧
    (mkStoredRecord 1 sampleCand).id ≠ (mkStoredRecord 2 sampleCand).id :=
  ⟨rfl, rfl, by decide,
   id_unique_per_clock true true 1 2 (.container (some []))
     (.container (some [])) sampleCand sampleCand
     (mkStoredRecord 1 sampleCand) (mkStoredRecord 2 sampleCand)
     rfl rfl (by decide)⟩
